import Mathlib

/-!
Verification of the `rag-service` of this repository against its
natural-language specification.  The definitions below are a shallow
embedding of the Python source:

* `app/services/document_parser.py` — whitespace normalization, token
  estimation, sentence splitting and the `chunk_text` while-loop (the loop
  is modelled with explicit fuel, since the Python loop is not structurally
  terminating; `none` means the fuel ran out, i.e. the loop iterated more
  times than the given bound).
* `app/services/embedding.py` — `generate_embeddings` with its sub-batching,
  parameterized by a pure provider function standing for the external
  embedding API.
* `app/services/chromadb_service.py` — the lazy-initialization state
  machine, with the environment (remote reachability, client construction
  outcomes) passed explicitly.
* `app/routes/query.py` — `process_query`, with the embedding and store
  calls passed as function parameters.

Machine strings are Lean `String`s (Python `len`/slicing on `str` agrees
with `List Char` length for the ASCII inputs used).  Only ASCII whitespace
is modelled for Python's `\s` / `str.strip`.
-/

/-- `CHARS_PER_TOKEN` from `document_parser.py`. -/
def CHARS_PER_TOKEN : Nat := 4

/-- `DocumentParser._estimate_tokens`: `len(text) // CHARS_PER_TOKEN`. -/
def estimateTokens (s : String) : Nat := s.length / CHARS_PER_TOKEN

/-- ASCII whitespace, as matched by Python's `\s` and stripped by `str.strip()`. -/
def pyIsSpace (c : Char) : Bool :=
  c = ' ' || c = '\t' || c = '\n' || c = '\r' || c = '\x0b' || c = '\x0c'

/-- `str.strip()` on the character list: drop whitespace from both ends. -/
def pyStripChars (l : List Char) : List Char :=
  ((l.dropWhile pyIsSpace).reverse.dropWhile pyIsSpace).reverse

/-- Python `str.strip()`. -/
def pyStrip (s : String) : String := ⟨pyStripChars s.data⟩

/-- `re.sub(r'\s+', ' ', ...)`: collapse every whitespace run to a single space. -/
def collapseWs : List Char → List Char
  | [] => []
  | [c] => if pyIsSpace c then [' '] else [c]
  | c :: d :: rest =>
    if pyIsSpace c && pyIsSpace d then collapseWs (d :: rest)
    else (if pyIsSpace c then ' ' else c) :: collapseWs (d :: rest)

/-- The normalization at the top of `chunk_text`:
`text = re.sub(r'\s+', ' ', text.strip())`. -/
def normalizeWs (s : String) : String := ⟨collapseWs (pyStripChars s.data)⟩

/-- Sentence-ending characters `[.!?]` of the sentence regex. -/
def isSentEnd (c : Char) : Bool := c = '.' || c = '!' || c = '?'

/-- The `[A-Z]` class of the sentence regex. -/
def isUpperAZ (c : Char) : Bool := 'A' ≤ c && c ≤ 'Z'

/-- Scanner for `re.split(r'(?<=[.!?])\s+(?=[A-Z])|(?<=[.!?])(?=\n\n)|(?<=[.!?])(?=\Z)', text)`
from `DocumentParser._split_into_sentences`.

`acc` is the current piece (reversed); `pend` (reversed) is a whitespace run
being scanned directly after a `[.!?]` character.  When the run ends: if the
next character is `[A-Z]` the first alternative matched (the run is consumed
and a split happens); otherwise, if the run began with two newlines the
second, zero-width alternative matched (split before the run); otherwise the
run is ordinary text.  The end-of-string alternative is zero-width, producing
a trailing empty piece that the later strip-and-filter removes, so closing
the current piece at the end is equivalent. -/
def splitSentencesAux : List Char → List Char → List Char → List (List Char)
  | [], acc, pend => [(pend ++ acc).reverse]
  | c :: rest, acc, pend =>
    if pend.isEmpty then
      if pyIsSpace c && (acc.head?.map isSentEnd).getD false then
        splitSentencesAux rest acc [c]
      else
        splitSentencesAux rest (c :: acc) []
    else
      if pyIsSpace c then
        splitSentencesAux rest acc (c :: pend)
      else if isUpperAZ c then
        acc.reverse :: splitSentencesAux rest [c] []
      else if (pend.reverse.take 2 = ['\n', '\n']) then
        acc.reverse :: splitSentencesAux rest (c :: pend) []
      else
        splitSentencesAux rest (c :: pend ++ acc) []

/-- `DocumentParser._split_into_sentences`: regex split, then
`[s.strip() for s in sentences if s.strip()]`. -/
def splitIntoSentences (s : String) : List String :=
  ((splitSentencesAux s.data [] []).map
      (fun l => (⟨pyStripChars l⟩ : String))).filter (fun t => t ≠ "")

/-- The overlap recomputation inside `chunk_text` (lines 168-180): walk the
accumulated sentences backwards (the argument is the current chunk reversed),
prepending each sentence while the accumulated token estimate stays under
`overlap` and the next sentence still fits; returns the overlap sentences in
original order together with their token estimate. -/
def takeOverlapRev (ov : Nat) : List String → Nat → List String → List String × Nat
  | [], ot, acc => (acc, ot)
  | s :: rest, ot, acc =>
    if ot < ov then
      if ot + estimateTokens s ≤ ov then
        takeOverlapRev ov rest (ot + estimateTokens s) (s :: acc)
      else (acc, ot)
    else (acc, ot)

/-- The overlap sentences kept when a chunk with sentence list `a` is closed
by the token-budget rule. -/
def ovSentences (ov : Nat) (a : List String) : List String :=
  (takeOverlapRev ov a.reverse 0 []).1

/-- The `while i < len(sentences)` loop of `chunk_text` (lines 151-198),
including the final flush.  Chunks are kept as sentence lists (the source
joins them with `" ".join` at flush time; `chunk_text` below applies the
join).  `fuel` bounds the number of loop iterations; `none` means the bound
was exceeded. -/
def chunkLoop (cs ov : Nat) : Nat → List String → List String → Nat → Nat →
    List (List String × Nat) → Option (List (List String × Nat))
  | _, [], cur, _, cid, acc =>
    some (if cur = [] then acc else acc ++ [(cur, cid)])
  | 0, _ :: _, _, _, _, _ => none
  | fuel + 1, s :: rest, cur, ct, cid, acc =>
    if ct + estimateTokens s > cs ∧ cur ≠ [] then
      chunkLoop cs ov fuel (s :: rest)
        (takeOverlapRev ov cur.reverse 0 []).1
        (takeOverlapRev ov cur.reverse 0 []).2
        (cid + 1) (acc ++ [(cur, cid)])
    else
      chunkLoop cs ov fuel rest (cur ++ [s]) (ct + estimateTokens s) cid acc

/-- `DocumentParser.chunk_text`, at the level of sentence lists: normalize,
return `[]` on empty text, a single chunk when the total token estimate fits,
otherwise run the sentence loop. -/
def chunkTextS (fuel : Nat) (text : String) (cs ov : Nat) :
    Option (List (List String × Nat)) :=
  let t := normalizeWs text
  if t = "" then some []
  else if estimateTokens t ≤ cs then some [([t], 0)]
  else chunkLoop cs ov fuel (splitIntoSentences t) [] 0 0 []

/-- Python `" ".join`. -/
def joinSpace : List String → String
  | [] => ""
  | [s] => s
  | s :: rest => s ++ " " ++ joinSpace rest

/-- `DocumentParser.chunk_text`: the chunks as `(chunk_text, chunk_id)` pairs
returned by the source (the sentence lists joined with a single space). -/
def chunk_text (fuel : Nat) (text : String) (cs ov : Nat) :
    Option (List (String × Nat)) :=
  (chunkTextS fuel text cs ov).map (List.map (fun p => (joinSpace p.1, p.2)))

/-- A raised Python exception, as observed through the FastAPI routes:
either an `HTTPException(status_code, detail)` or some other exception
carrying its `str(e)` message. -/
inductive PyExc where
  | http (status : Nat) (detail : String)
  | other (msg : String)
deriving DecidableEq, Repr

/-- Python `str(e)`: for a (fastapi/starlette) `HTTPException` this is
`f"{status_code}: {detail}"`; for other exceptions the message itself. -/
def excStr : PyExc → String
  | .http st d => toString st ++ ": " ++ d
  | .other m => m

/-- `MAX_BATCH_SIZE` from `embedding.py` (line 10). -/
def MAX_BATCH_SIZE : Nat := 2048

/-- The sub-batches formed by `EmbeddingService.generate_embeddings`
(lines 57-63): `batch_size = min(MAX_BATCH_SIZE, total_texts)`,
`num_batches = (total_texts + batch_size - 1) // batch_size`, and the k-th
batch is the slice `texts[k*batch_size : min(k*batch_size+batch_size, total_texts)]`. -/
def subBatches (texts : List String) : List (List String) :=
  let n := texts.length
  let bs := min MAX_BATCH_SIZE n
  (List.range ((n + bs - 1) / bs)).map
    (fun k => (texts.drop (k * bs)).take (min (k * bs + bs) n - k * bs))

/-- `EmbeddingService.generate_embeddings`, parameterized by the external
provider call (`_generate_embeddings_batch_sync`), modelled as a pure
function from a batch of texts to a list of embedding vectors.  For empty
input, `batch_size = min(MAX_BATCH_SIZE, 0) = 0` and the `num_batches`
computation `(0 + 0 - 1) // 0` raises `ZeroDivisionError` in Python, which
the blanket `except` logs and re-raises; otherwise the loop issues one
provider call per sub-batch in order and `extend`s the results, i.e. it
returns their concatenation. -/
def generate_embeddings {α : Type} (provider : List String → List α)
    (texts : List String) : Except PyExc (List α) :=
  if min MAX_BATCH_SIZE texts.length = 0 then
    Except.error (PyExc.other "ZeroDivisionError: integer division or modulo by zero")
  else
    Except.ok (((subBatches texts).map provider).flatten)

/-- The embedding-count check of `ingest_document` (`documents.py`
lines 74-78): raise `HTTPException(500, ...)` when the number of embeddings
returned differs from the number of chunk texts. -/
def embedCountCheck {α : Type} (embeddings : List α) (chunkTexts : List String) :
    Option PyExc :=
  if embeddings.length ≠ chunkTexts.length then
    some (PyExc.http 500 ("Embedding count mismatch: expected " ++
      toString chunkTexts.length ++ ", got " ++ toString embeddings.length))
  else none

/-- Which ChromaDB client a `ChromaDBService` holds: the remote
`chromadb.HttpClient` or the in-memory `chromadb.Client()` fallback. -/
inductive ClientKind where
  | http
  | inMem
deriving DecidableEq, Repr

/-- The mutable fields of `ChromaDBService` (`chromadb_service.py`
lines 14-18).  The collection carries the kind of the client that created
it.  Constructing the remote client and its collection is collapsed into one
outcome (a partial remote construction is overwritten by the fallback and is
not observable through `get_status` or the claims below). -/
structure ChromaState where
  client : Option ClientKind
  collection : Option ClientKind
  inited : Bool
  initErr : Option String
deriving DecidableEq, Repr

/-- `ChromaDBService.__init__`. -/
def chromaInitialState : ChromaState :=
  { client := none, collection := none, inited := false, initErr := none }

/-- The environment a (lazy) initialization runs against: whether the remote
server answers the socket probe, whether remote client+collection setup
succeeds, and whether the in-memory client+collection setup succeeds. -/
structure ChromaEnv where
  remoteReachable : Bool
  remoteSetup : Except String Unit
  inMemSetup : Except String Unit

/-- Python truthiness of `self._initialization_error` (an `Option String`):
`None` and the empty string are falsy. -/
def pyTruthyErr : Option String → Bool
  | none => false
  | some m => m ≠ ""

/-- `ChromaDBService._initialize` (lines 42-79): probe the remote server,
on success set up the remote client and collection; on any failure fall back
to the in-memory client; if the fallback also fails, cache `str(e2)` in
`_initialization_error` and re-raise.  Returns the new state and the raised
exception message, if any. -/
def chromaDbInit (env : ChromaEnv) (s : ChromaState) : ChromaState × Option String :=
  let remoteErr : Option String :=
    if ¬ env.remoteReachable then some "ChromaDB server not reachable"
    else
      match env.remoteSetup with
      | .ok _ => none
      | .error m => some m
  match remoteErr with
  | none =>
    ({ s with client := some .http, collection := some .http, inited := true }, none)
  | some _ =>
    match env.inMemSetup with
    | .ok _ =>
      ({ s with client := some .inMem, collection := some .inMem, inited := true }, none)
    | .error m2 => ({ s with initErr := some m2 }, some m2)

/-- `ChromaDBService._ensure_initialized` (lines 20-28): return at once when
initialized; raise `RuntimeError(f"ChromaDB initialization failed: {...}")`
when an initialization error is cached (and truthy); otherwise run
`_initialize`. -/
def ensureInited (env : ChromaEnv) (s : ChromaState) : ChromaState × Option String :=
  if s.inited then (s, none)
  else if pyTruthyErr s.initErr then
    (s, some ("ChromaDB initialization failed: " ++ s.initErr.getD ""))
  else chromaDbInit env s

/-- `ChromaDBService.get_status` (lines 90-96). -/
def get_status (s : ChromaState) : String :=
  if pyTruthyErr s.initErr then "error"
  else if s.inited then "initialized"
  else "uninitialized"

/-- `ChromaDBService.add_documents` (lines 113-161): `_ensure_initialized`,
then the batched `collection.add` calls, whose overall outcome is passed in
as `opResult` (exceptions from the collection are logged and re-raised
unchanged). -/
def add_documents (env : ChromaEnv) (opResult : Except String Unit)
    (s : ChromaState) : ChromaState × Except String Unit :=
  match ensureInited env s with
  | (s1, none) => (s1, opResult)
  | (s1, some m) => (s1, Except.error m)

/-- `ChromaDBService.query` (lines 174-193): `_ensure_initialized`, then the
`collection.query` call, whose outcome is passed in as `opResult`. -/
def query_collection {α : Type} (env : ChromaEnv) (opResult : Except String α)
    (s : ChromaState) : ChromaState × Except String α :=
  match ensureInited env s with
  | (s1, none) => (s1, opResult)
  | (s1, some m) => (s1, Except.error m)

/-- A ChromaDB metadata dict, as an association list. -/
abbrev Meta := List (String × String)

/-- The dict returned by `chromadb_service.query`: one inner list per query
embedding, as ChromaDB returns. -/
structure QueryResults where
  documents : List (List String)
  metadatas : List (List Meta)
deriving DecidableEq, Repr

/-- The response model of the query route. -/
structure QueryResponse where
  context : String
  sources : List Meta
  message : String
deriving DecidableEq, Repr

/-- Python `l[0]`: the first element, or an `IndexError` on an empty list. -/
def pyIndex0 {β : Type} : List β → Except PyExc β
  | [] => Except.error (PyExc.other "list index out of range")
  | x :: _ => Except.ok x

/-- `source_info.get('source', 'unknown')` from the context assembly. -/
def sourceOf (m : Meta) : String := (m.lookup "source").getD "unknown"

/-- The context assembly of `process_query` (lines 44-49):
`f"[Document {i+1} - Source: {...}]\n{doc}"` per document, where the
metadata for index `i` defaults to an empty dict when missing. -/
def contextParts (docs : List String) (metas : List Meta) : List String :=
  docs.enum.map (fun p =>
    "[Document " ++ toString (p.1 + 1) ++ " - Source: " ++
      sourceOf (metas.getD p.1 []) ++ "]\n" ++ p.2)

/-- The body of the `try:` block of `process_query` (`query.py` lines 15-57),
with the embedding call and the store query passed in as functions;
exceptions raised by a step propagate past the remaining steps, as in
Python. -/
def processQueryBody {Emb : Type} (embed : String → Except PyExc Emb)
    (store : List Emb → Nat → Except PyExc QueryResults)
    (q : String) : Except PyExc QueryResponse :=
  let query := pyStrip q
  if query = "" then Except.error (PyExc.http 400 "Query cannot be empty")
  else
    match embed query with
    | .error e => .error e
    | .ok emb =>
      match store [emb] 5 with
      | .error e => .error e
      | .ok res =>
        match pyIndex0 res.documents with
        | .error e => .error e
        | .ok documents =>
          match pyIndex0 res.metadatas with
          | .error e => .error e
          | .ok metadatas =>
            if documents = [] then
              .ok { context := "No relevant context found in knowledge base.",
                    sources := [], message := "No documents found" }
            else
              .ok { context := String.intercalate "\n\n" (contextParts documents metadatas),
                    sources := metadatas,
                    message := "Retrieved " ++ toString documents.length ++
                      " relevant documents" }

/-- `process_query` (`query.py` lines 12-61): the body above wrapped in the
blanket `except Exception` handler, which converts EVERY exception — the
`HTTPException(400, ...)` raised for an empty query included — into
`HTTPException(500, f"Error processing query: {str(e)}")`. -/
def process_query {Emb : Type} (embed : String → Except PyExc Emb)
    (store : List Emb → Nat → Except PyExc QueryResults)
    (q : String) : Except PyExc QueryResponse :=
  match processQueryBody embed store q with
  | .ok r => .ok r
  | .error e => .error (PyExc.http 500 ("Error processing query: " ++ excStr e))

/-- The state reached when the in-memory fallback of `_initialize`
succeeds. -/
def chromaMemState : ChromaState :=
  { client := some .inMem, collection := some .inMem, inited := true, initErr := none }

/-- The state reached when the in-memory fallback of `_initialize` also
fails, with `str(e2) = m`. -/
def chromaFailedState (m : String) : ChromaState :=
  { client := none, collection := none, inited := false, initErr := some m }

/-- A concrete environment for witnesses: remote probe fails and the
in-memory fallback construction also fails with message `"boom"`. -/
def chromaEnvBoom : ChromaEnv :=
  { remoteReachable := false, remoteSetup := Except.error "conn",
    inMemSetup := Except.error "boom" }

/-- The overlap relation between the sentence lists of consecutive chunks:
chunk `b` begins with the overlap sentences recomputed from chunk `a` when
`a` was closed by the token-budget rule. -/
def overlapChain (ov : Nat) (a b : List String) : Prop :=
  ∃ t, ovSentences ov a ++ t = b

/-- A concrete environment where the remote probe fails and the in-memory
fallback construction fails with an exception whose `str(e2)` is empty
(e.g. a bare `ValueError()`). -/
def chromaEnvEmptyMsg : ChromaEnv :=
  { remoteReachable := false, remoteSetup := Except.error "conn",
    inMemSetup := Except.error "" }

/-- A concrete environment where the remote server is reachable and remote
setup succeeds. -/
def chromaEnvRemoteOk : ChromaEnv :=
  { remoteReachable := true, remoteSetup := Except.ok (),
    inMemSetup := Except.ok () }

/-! ## Helper lemmas -/

theorem list_take_add {α : Type} (l : List α) (a b : Nat) :
    l.take (a + b) = l.take a ++ (l.drop a).take b := by
  have h1 : (l.take (a + b)).take a = l.take a := by
    rw [List.take_take]
    congr 1
    omega
  have h2 : (l.drop a).take b = (l.take (a + b)).drop a := List.take_drop a b l
  conv_lhs => rw [← List.take_append_drop a (l.take (a + b))]
  rw [h1, ← h2]

theorem slices_flatten {α : Type} (l : List α) (bs : Nat) (hbs : 0 < bs) :
    ∀ m, ((List.range m).map
        (fun k => (l.drop (k * bs)).take (min (k * bs + bs) l.length - k * bs))).flatten
      = l.take (min (m * bs) l.length) := by
  intro m
  induction m with
  | zero => simp
  | succ m ih =>
    rw [List.range_succ, List.map_append, List.flatten_append, ih]
    simp only [List.map_cons, List.map_nil, List.flatten_cons, List.flatten_nil,
      List.append_nil]
    rcases Nat.le_total (m * bs) l.length with h | h
    · rw [Nat.min_eq_left h]
      have harith : min ((m + 1) * bs) l.length
          = m * bs + (min (m * bs + bs) l.length - m * bs) := by
        have : (m + 1) * bs = m * bs + bs := by ring
        omega
      rw [harith, list_take_add]
    · have h1 : min (m * bs) l.length = l.length := by omega
      have h2 : min ((m + 1) * bs) l.length = l.length := by
        have : m * bs ≤ (m + 1) * bs := by
          apply Nat.mul_le_mul_right
          omega
        omega
      rw [h1, h2, List.take_length, List.drop_eq_nil_of_le (by omega), List.take_nil,
        List.append_nil]

theorem ceil_div_mul_ge (n bs : Nat) (hbs : 0 < bs) : n ≤ ((n + bs - 1) / bs) * bs := by
  by_contra hlt
  push_neg at hlt
  have hq : (n + bs - 1) / bs + 1 ≤ (n + bs - 1) / bs := by
    rw [Nat.le_div_iff_mul_le hbs]
    have : ((n + bs - 1) / bs + 1) * bs = (n + bs - 1) / bs * bs + bs := by ring
    omega
  omega

theorem subBatches_flatten (texts : List String) (h : texts ≠ []) :
    (subBatches texts).flatten = texts := by
  have hn : 0 < texts.length := List.length_pos.mpr h
  have hbs : 0 < min MAX_BATCH_SIZE texts.length := by
    simp [MAX_BATCH_SIZE]
    omega
  unfold subBatches
  rw [slices_flatten texts (min MAX_BATCH_SIZE texts.length) hbs]
  have hge : texts.length ≤
      ((texts.length + min MAX_BATCH_SIZE texts.length - 1) /
        min MAX_BATCH_SIZE texts.length) * min MAX_BATCH_SIZE texts.length :=
    ceil_div_mul_ge _ _ hbs
  rw [Nat.min_eq_right hge, List.take_length]

/-! ## Claim C10 -/

/-- Claim C10: called with an empty list of texts, `generate_embeddings`
does not return an empty embedding list — `batch_size = min(MAX_BATCH_SIZE, 0)
= 0` makes the `num_batches` computation divide by zero, so the call raises
`ZeroDivisionError`. -/
theorem c10_empty_input_raises {α : Type} (provider : List String → List α) :
    generate_embeddings provider [] =
      Except.error (PyExc.other "ZeroDivisionError: integer division or modulo by zero") :=
  rfl

/-! ## Claim C9 -/

/-- Claim C9: `generate_embeddings` splits its input into consecutive groups
of at most `MAX_BATCH_SIZE = 2048` texts (their concatenation is the input,
in order), issues one provider call per group in index order and returns the
concatenation of the per-group results; an input of 3000 texts yields
exactly the sub-batch sizes `[2048, 952]`. -/
theorem c9_subbatching {α : Type} (provider : List String → List α)
    (texts : List String) (h : texts ≠ []) :
    (∀ b ∈ subBatches texts, b.length ≤ MAX_BATCH_SIZE) ∧
    (subBatches texts).flatten = texts ∧
    generate_embeddings provider texts =
      Except.ok (((subBatches texts).map provider).flatten) ∧
    (texts.length = 3000 → (subBatches texts).map List.length = [2048, 952]) := by
  have hn : 0 < texts.length := List.length_pos.mpr h
  refine ⟨?_, subBatches_flatten texts h, ?_, ?_⟩
  · intro b hb
    unfold subBatches at hb
    rcases List.mem_map.mp hb with ⟨k, _, hk⟩
    have hlen := congrArg List.length hk
    simp only [List.length_take, List.length_drop] at hlen
    have hbs : min MAX_BATCH_SIZE texts.length ≤ MAX_BATCH_SIZE := Nat.min_le_left _ _
    omega
  · unfold generate_embeddings
    rw [if_neg (by simp only [MAX_BATCH_SIZE]; omega)]
  · intro h3000
    unfold subBatches
    rw [h3000]
    norm_num [MAX_BATCH_SIZE]
    have hr : List.range 2 = [0, 1] := by decide
    rw [hr]
    simp only [List.map_cons, List.map_nil, List.length_take, List.length_drop, h3000]
    norm_num
    omega

/-- Witness for C9 at a concrete input. -/
theorem c9_witness :
    (∀ b ∈ subBatches ["a", "b", "c"], b.length ≤ MAX_BATCH_SIZE) ∧
    (subBatches ["a", "b", "c"]).flatten = ["a", "b", "c"] ∧
    generate_embeddings (fun l => l.map fun _ => (0 : Nat)) ["a", "b", "c"] =
      Except.ok (((subBatches ["a", "b", "c"]).map
        (fun l => l.map fun _ => (0 : Nat))).flatten) ∧
    ((["a", "b", "c"] : List String).length = 3000 →
      (subBatches ["a", "b", "c"]).map List.length = [2048, 952]) :=
  c9_subbatching (fun l => l.map fun _ => (0 : Nat)) ["a", "b", "c"] (by decide)

/-! ## Claim C3 -/

/-- Counterexample for C3 as stated: a provider returning no vectors for the
sub-batch makes `generate_embeddings` return a successful, shorter result —
no embedding-count-mismatch error is raised inside `generate_embeddings`. -/
theorem c3_counterexample :
    generate_embeddings (fun _ => ([] : List Nat)) ["a"] = Except.ok [] ∧
    ([] : List Nat).length ≠ (["a"] : List String).length := by
  exact ⟨rfl, by decide⟩

/-- Claim C3, amended: for non-empty `texts`, `generate_embeddings` returns
(without raising) the concatenation of the provider's per-sub-batch results,
so `len(result) == len(texts)` holds whenever the provider returns one
vector per input; `generate_embeddings` itself performs no count check — the
mismatch is detected by the caller `ingest_document`, which raises an
embedding-count-mismatch `HTTPException(500, ...)` when the total count
differs from the number of chunk texts. -/
theorem c3_amended {α : Type} (provider : List String → List α)
    (texts : List String) (h : texts ≠ []) :
    generate_embeddings provider texts =
      Except.ok (((subBatches texts).map provider).flatten) ∧
    ((∀ b, (provider b).length = b.length) →
      (((subBatches texts).map provider).flatten).length = texts.length) ∧
    (∀ (embeddings : List α) (chunkTexts : List String),
      embeddings.length ≠ chunkTexts.length →
      embedCountCheck embeddings chunkTexts = some (PyExc.http 500
        ("Embedding count mismatch: expected " ++ toString chunkTexts.length ++
          ", got " ++ toString embeddings.length))) := by
  have hn : 0 < texts.length := List.length_pos.mpr h
  refine ⟨?_, ?_, ?_⟩
  · unfold generate_embeddings
    rw [if_neg (by simp only [MAX_BATCH_SIZE]; omega)]
  · intro hp
    rw [List.length_flatten, List.map_map]
    have hmap : (subBatches texts).map (List.length ∘ provider)
        = (subBatches texts).map List.length := by
      apply List.map_congr_left
      intro b _
      exact hp b
    rw [hmap, ← List.length_flatten, subBatches_flatten texts h]
  · intro embeddings chunkTexts hne
    unfold embedCountCheck
    rw [if_pos hne]

/-- Witness for C3's amended claim at a concrete input. -/
theorem c3_witness :
    generate_embeddings (fun l => l.map fun _ => (0 : Nat)) ["x"] =
      Except.ok (((subBatches ["x"]).map (fun l => l.map fun _ => (0 : Nat))).flatten) ∧
    ((∀ b, ((fun (l : List String) => l.map fun _ => (0 : Nat)) b).length = b.length) →
      (((subBatches ["x"]).map (fun l => l.map fun _ => (0 : Nat))).flatten).length =
        (["x"] : List String).length) ∧
    (∀ (embeddings : List Nat) (chunkTexts : List String),
      embeddings.length ≠ chunkTexts.length →
      embedCountCheck embeddings chunkTexts = some (PyExc.http 500
        ("Embedding count mismatch: expected " ++ toString chunkTexts.length ++
          ", got " ++ toString embeddings.length))) :=
  c3_amended (fun l => l.map fun _ => (0 : Nat)) ["x"] (by decide)

/-! ## Claim C2 -/

/-- Claim C2 fails on the code: for an empty or whitespace-only query,
`process_query` raises `HTTPException(400, "Query cannot be empty")` inside
the `try:` block, but the blanket `except Exception` catches it (fastapi's
`HTTPException` derives from `Exception`) and re-raises it wrapped as
`HTTPException(500, "Error processing query: 400: Query cannot be empty")` —
the caller observes a 500, not a 400-class validation error.  `documents.py`
shows the intended pattern (`except HTTPException: raise` first). -/
theorem c2_empty_query_becomes_500 {Emb : Type}
    (embed : String → Except PyExc Emb)
    (store : List Emb → Nat → Except PyExc QueryResults) :
    process_query embed store "" =
      Except.error (PyExc.http 500 "Error processing query: 400: Query cannot be empty") ∧
    process_query embed store "   " =
      Except.error (PyExc.http 500 "Error processing query: 400: Query cannot be empty") :=
  ⟨rfl, rfl⟩

/-! ## Claim C7 -/

/-- Claim C7: a non-empty query whose embedding succeeds and whose store
query succeeds with zero matches (an empty inner document list, as ChromaDB
returns one inner list per query embedding) yields a successful response
whose context is exactly the sentinel string and whose sources are empty. -/
theorem c7_zero_matches_sentinel {Emb : Type}
    (embed : String → Except PyExc Emb)
    (store : List Emb → Nat → Except PyExc QueryResults)
    (q : String) (emb : Emb) (res : QueryResults)
    (ds : List (List String)) (mm : List Meta) (ms : List (List Meta))
    (hq : pyStrip q ≠ "")
    (he : embed (pyStrip q) = Except.ok emb)
    (hs : store [emb] 5 = Except.ok res)
    (hd : res.documents = [] :: ds)
    (hm : res.metadatas = mm :: ms) :
    process_query embed store q = Except.ok
      { context := "No relevant context found in knowledge base.",
        sources := [], message := "No documents found" } := by
  unfold process_query processQueryBody
  simp only [if_neg hq, he, hs, hd, hm, pyIndex0]
  rfl

/-- Witness for C7 at a concrete input. -/
theorem c7_witness :
    process_query (fun _ => Except.ok (0 : Nat))
      (fun _ _ => Except.ok { documents := [[]], metadatas := [[]] }) "hi" =
    Except.ok
      { context := "No relevant context found in knowledge base.",
        sources := [], message := "No documents found" } :=
  c7_zero_matches_sentinel (fun _ => Except.ok (0 : Nat))
    (fun _ _ => Except.ok { documents := [[]], metadatas := [[]] })
    "hi" 0 { documents := [[]], metadatas := [[]] } [] [] []
    (by decide) rfl rfl rfl rfl

/-! ## Claim C5 -/

/-- Counterexample for C5 as stated: after a successful in-memory fallback
initialization the status is the string `"initialized"`, which is none of
the four claimed values, and it coincides with the status after a successful
remote initialization — so the caller cannot distinguish a remote connection
from the in-memory degraded mode through `get_status`. -/
theorem c5_counterexample :
    get_status ((ensureInited
        { remoteReachable := false, remoteSetup := Except.error "conn",
          inMemSetup := Except.ok () } chromaInitialState).1) = "initialized" ∧
    get_status ((ensureInited
        { remoteReachable := true, remoteSetup := Except.ok (),
          inMemSetup := Except.error "unused" } chromaInitialState).1) = "initialized" ∧
    ("initialized" : String) ∉
      (["uninitialized", "connected_remote", "connected_in_memory", "failed"] :
        List String) := by
  refine ⟨rfl, rfl, by decide⟩

/-- Claim C5, amended: `get_status` is a pure read of the service state
(it never runs `_initialize`) and returns exactly one of the three strings
`"error"`, `"initialized"`, `"uninitialized"`; it does not distinguish the
remote connection from the in-memory fallback. -/
theorem c5_amended (s : ChromaState) :
    get_status s = "error" ∨ get_status s = "initialized" ∨
      get_status s = "uninitialized" := by
  unfold get_status
  split_ifs with h1 h2
  · exact Or.inl rfl
  · exact Or.inr (Or.inl rfl)
  · exact Or.inr (Or.inr rfl)

/-! ## Claim C6 -/

/-- Counterexample for C6 as stated: when the in-memory fallback fails with
an exception whose `str(e2)` is the empty string, the cached
`_initialization_error` is falsy, so a subsequent call does NOT re-raise the
cached error — `_ensure_initialized` silently re-runs `_initialize`, and if
the remote store has meanwhile become reachable the call quietly succeeds
(no error observed), refuting "the triggering error is cached and re-raised
on every subsequent call until the instance is reconstructed"; the cached
state reports `"uninitialized"`, not a failed state. -/
theorem c6_counterexample :
    ensureInited chromaEnvEmptyMsg chromaInitialState =
      (chromaFailedState "", some "") ∧
    ensureInited chromaEnvRemoteOk (chromaFailedState "") =
      ({ client := some .http, collection := some .http, inited := true,
         initErr := some "" }, none) ∧
    get_status (chromaFailedState "") = "uninitialized" :=
  ⟨rfl, rfl, rfl⟩

/-- Claim C6, amended: when remote initialization fails (unreachable probe
or failed remote setup), the first use falls back to the in-memory client:
on fallback success the gateway reaches a usable initialized state and
subsequent `add_documents` / `query` calls pass through with no gateway
error; only when the in-memory fallback itself fails does the state become
failed, `str(e2)` is cached, and — provided the cached message is truthy
(non-empty) — every subsequent call raises
`RuntimeError("ChromaDB initialization failed: <cached>")` until a new
instance is constructed (an empty cached message instead makes subsequent
calls silently retry initialization, see the counterexample). -/
theorem c6_fallback_and_failure (env : ChromaEnv) (m2 : String)
    (hRemote : env.remoteReachable = false ∨ ∃ m, env.remoteSetup = Except.error m) :
    (env.inMemSetup = Except.ok () →
      ensureInited env chromaInitialState = (chromaMemState, none) ∧
      (∀ (env2 : ChromaEnv) (op : Except String Unit),
        add_documents env2 op chromaMemState = (chromaMemState, op)) ∧
      (∀ (env2 : ChromaEnv) (r : Except String QueryResults),
        query_collection env2 r chromaMemState = (chromaMemState, r))) ∧
    (env.inMemSetup = Except.error m2 → m2 ≠ "" →
      ensureInited env chromaInitialState = (chromaFailedState m2, some m2) ∧
      (∀ env2 : ChromaEnv,
        ensureInited env2 (chromaFailedState m2) =
          (chromaFailedState m2, some ("ChromaDB initialization failed: " ++ m2)))) := by
  have hre : ∃ me, (if ¬ env.remoteReachable then some "ChromaDB server not reachable"
      else match env.remoteSetup with
        | .ok _ => none
        | .error m => some m) = some me := by
    rcases hRemote with hr | ⟨m, hr⟩
    · exact ⟨"ChromaDB server not reachable", by rw [hr]; simp⟩
    · by_cases hb : env.remoteReachable
      · exact ⟨m, by rw [hr]; simp [hb]⟩
      · exact ⟨"ChromaDB server not reachable", by simp [hb]⟩
  rcases hre with ⟨me, hme⟩
  constructor
  · intro hMem
    have h1 : ensureInited env chromaInitialState = (chromaMemState, none) := by
      unfold ensureInited chromaInitialState
      simp only [pyTruthyErr]
      unfold chromaDbInit
      rw [hme, hMem]
      rfl
    refine ⟨h1, ?_, ?_⟩
    · intro env2 op
      unfold add_documents ensureInited
      rfl
    · intro env2 r
      unfold query_collection ensureInited
      rfl
  · intro hMem hm2
    have h1 : ensureInited env chromaInitialState = (chromaFailedState m2, some m2) := by
      unfold ensureInited chromaInitialState
      simp only [pyTruthyErr]
      unfold chromaDbInit
      rw [hme, hMem]
      rfl
    refine ⟨h1, ?_⟩
    intro env2
    unfold ensureInited chromaFailedState
    simp only [pyTruthyErr]
    rw [if_neg (by simp), if_pos (by simpa using hm2)]
    rfl

/-- Witness for C6 at a concrete environment (remote unreachable, in-memory
fallback construction also failing with message `"boom"`). -/
theorem c6_witness :
    (chromaEnvBoom.inMemSetup = Except.ok () →
      ensureInited chromaEnvBoom chromaInitialState = (chromaMemState, none) ∧
      (∀ (env2 : ChromaEnv) (op : Except String Unit),
        add_documents env2 op chromaMemState = (chromaMemState, op)) ∧
      (∀ (env2 : ChromaEnv) (r : Except String QueryResults),
        query_collection env2 r chromaMemState = (chromaMemState, r))) ∧
    (chromaEnvBoom.inMemSetup = Except.error "boom" → "boom" ≠ "" →
      ensureInited chromaEnvBoom chromaInitialState =
        (chromaFailedState "boom", some "boom") ∧
      (∀ env2 : ChromaEnv,
        ensureInited env2 (chromaFailedState "boom") =
          (chromaFailedState "boom", some ("ChromaDB initialization failed: " ++ "boom")))) :=
  c6_fallback_and_failure chromaEnvBoom "boom" (Or.inl rfl)

/-! ## Claim C8 -/

/-- Counterexample for C8 as stated: a text that is empty (or whitespace-only)
after normalization has estimated token count `0 ≤ target_tokens`, yet
`chunk_text` returns the empty chunk list, not one chunk. -/
theorem c8_counterexample :
    estimateTokens (normalizeWs "   ") ≤ 500 ∧
    chunk_text 5 "   " 500 100 = some [] ∧
    ([] : List (String × Nat)).length ≠ 1 := by
  refine ⟨by decide, rfl, by decide⟩

/-- Claim C8, amended: for every text whose whitespace normalization is
non-empty and whose estimated token count is at most `target_tokens`,
`chunk_text` returns exactly one chunk, whose text is the normalized input
and whose sequence id is 0. -/
theorem c8_single_chunk (text : String) (cs ov fuel : Nat)
    (h1 : normalizeWs text ≠ "") (h2 : estimateTokens (normalizeWs text) ≤ cs) :
    chunk_text fuel text cs ov = some [(normalizeWs text, 0)] := by
  unfold chunk_text chunkTextS
  simp only [if_neg h1, if_pos h2, Option.map_some, List.map_cons, List.map_nil]
  rfl

/-- Witness for C8 at a concrete input. -/
theorem c8_witness : chunk_text 7 "Hello." 500 100 = some [("Hello.", 0)] :=
  c8_single_chunk "Hello." 500 100 7 (by decide) (by decide)

/-! ## Claim C1 -/

theorem c1_loop_stuck : ∀ (fuel cid : Nat) (acc : List (List String × Nat)),
    chunkLoop 2 1 fuel ["Abcdefghij."] ["Hole."] 1 cid acc = none := by
  intro fuel
  induction fuel with
  | zero => intro cid acc; rfl
  | succ n ih =>
    intro cid acc
    simp only [chunkLoop]
    rw [if_pos (by decide)]
    have ht : takeOverlapRev 1 (["Hole."] : List String).reverse 0 [] = (["Hole."], 1) := by
      decide
    rw [ht]
    exact ih (cid + 1) (acc ++ [(["Hole."], cid)])

/-- Claim C1 fails on the code: `chunk_text` does not terminate on every
well-formed input.  On the text `"Hole. Abcdefghij."` with
`target_tokens = 2` and `overlap_tokens = 1` (preconditions satisfied: the
normalized text is non-empty, `0 < target`, `0 ≤ overlap < target`), the
loop reaches the state `current = ["Hole."]` facing the sentence
`"Abcdefghij."`; the flush re-derives the very same overlap sentences, so
the same state recurs forever and the sentence — whose token estimate
exceeds what fits next to the overlap — is never emitted.  Formally: no
iteration bound `fuel` whatsoever suffices. -/
theorem c1_chunk_text_diverges : ∀ fuel : Nat,
    chunk_text fuel "Hole. Abcdefghij." 2 1 = none := by
  intro fuel
  have hS : chunkTextS fuel "Hole. Abcdefghij." 2 1 = none := by
    simp only [chunkTextS]
    rw [if_neg (by decide), if_neg (by decide)]
    rw [show splitIntoSentences (normalizeWs "Hole. Abcdefghij.")
        = ["Hole.", "Abcdefghij."] from by decide]
    cases fuel with
    | zero => rfl
    | succ n =>
      simp only [chunkLoop]
      rw [if_neg (by decide)]
      exact c1_loop_stuck n 0 []
  unfold chunk_text
  rw [hS]
  rfl

/-! ## Claim C4 -/

theorem takeOverlapRev_acc (ov : Nat) :
    ∀ (l : List String) (ot : Nat) (acc : List String),
      ∃ p, (takeOverlapRev ov l ot acc).1 = p ++ acc := by
  intro l
  induction l with
  | nil => intro ot acc; exact ⟨[], rfl⟩
  | cons s l ih =>
    intro ot acc
    unfold takeOverlapRev
    split_ifs with h1 h2
    · rcases ih (ot + estimateTokens s) (s :: acc) with ⟨p, hp⟩
      exact ⟨p ++ [s], by rw [hp]; simp⟩
    · exact ⟨[], rfl⟩
    · exact ⟨[], rfl⟩

theorem takeOverlapRev_suffix (ov : Nat) :
    ∀ (l : List String) (ot : Nat) (acc : List String),
      ∃ u, u ++ (takeOverlapRev ov l ot acc).1 = l.reverse ++ acc := by
  intro l
  induction l with
  | nil => intro ot acc; exact ⟨[], by simp [takeOverlapRev]⟩
  | cons s l ih =>
    intro ot acc
    unfold takeOverlapRev
    split_ifs with h1 h2
    · rcases ih (ot + estimateTokens s) (s :: acc) with ⟨u, hu⟩
      refine ⟨u, ?_⟩
      rw [hu]
      simp
    · exact ⟨(s :: l).reverse, rfl⟩
    · exact ⟨(s :: l).reverse, rfl⟩

theorem ovSentences_suffix (ov : Nat) (a : List String) :
    ∃ u, u ++ ovSentences ov a = a := by
  rcases takeOverlapRev_suffix ov a.reverse 0 [] with ⟨u, hu⟩
  refine ⟨u, ?_⟩
  simpa [ovSentences] using hu

theorem ovSentences_ne_nil_iff (ov : Nat) (a : List String) :
    ovSentences ov a ≠ [] ↔
      0 < ov ∧ ∃ lastS, a.getLast? = some lastS ∧ estimateTokens lastS ≤ ov := by
  unfold ovSentences
  cases ha : a.reverse with
  | nil =>
    have h0 : a = [] := List.reverse_eq_nil_iff.mp ha
    subst h0
    simp [takeOverlapRev]
  | cons x xs =>
    have hlast : a.getLast? = some x := by
      rw [← List.head?_reverse, ha]
      rfl
    unfold takeOverlapRev
    split_ifs with h1 h2
    · rcases takeOverlapRev_acc ov xs (0 + estimateTokens x) [x] with ⟨p, hp⟩
      constructor
      · intro _
        exact ⟨h1, x, hlast, by omega⟩
      · intro _
        rw [hp]
        simp
    · simp only [ne_eq, not_true_eq_false, false_iff, not_and]
      intro _
      rintro ⟨lastS, hl, hle⟩
      rw [hlast] at hl
      injection hl with hl
      subst hl
      omega
    · simp only [ne_eq, not_true_eq_false, false_iff, not_and]
      intro hov
      exact absurd hov h1

theorem chain_concat_overlap (ov : Nat) (l : List (List String)) (x y : List String)
    (h : List.Chain' (overlapChain ov) (l ++ [x])) (hxy : overlapChain ov x y) :
    List.Chain' (overlapChain ov) ((l ++ [x]) ++ [y]) := by
  rw [List.chain'_append]
  refine ⟨h, List.chain'_singleton y, ?_⟩
  intro u hu v hv
  rw [List.getLast?_concat] at hu
  simp only [List.head?_cons, Option.mem_def, Option.some.injEq] at hu hv
  subst hu
  subst hv
  exact hxy

theorem chain_last_extend (ov : Nat) (l : List (List String)) (x y : List String)
    (h : List.Chain' (overlapChain ov) (l ++ [x]))
    (himp : ∀ a, overlapChain ov a x → overlapChain ov a y) :
    List.Chain' (overlapChain ov) (l ++ [y]) := by
  rw [List.chain'_append] at h ⊢
  rcases h with ⟨h1, _, h3⟩
  refine ⟨h1, List.chain'_singleton y, ?_⟩
  intro u hu v hv
  simp only [List.head?_cons, Option.mem_def, Option.some.injEq] at hv
  subst hv
  exact himp u (h3 u hu x (by simp))

theorem chunkLoop_chain (cs ov : Nat) :
    ∀ (fuel : Nat) (rest cur : List String) (ct cid : Nat)
      (acc chs : List (List String × Nat)),
      chunkLoop cs ov fuel rest cur ct cid acc = some chs →
      List.Chain' (overlapChain ov) (acc.map Prod.fst ++ [cur]) →
      List.Chain' (overlapChain ov) (chs.map Prod.fst) := by
  intro fuel
  induction fuel with
  | zero =>
    intro rest cur ct cid acc chs hrun hinv
    cases rest with
    | nil =>
      simp only [chunkLoop] at hrun
      by_cases hc : cur = []
      · rw [if_pos hc] at hrun
        injection hrun with hrun
        subst hrun
        subst hc
        exact (List.chain'_append.mp hinv).1
      · rw [if_neg hc] at hrun
        injection hrun with hrun
        subst hrun
        rw [List.map_append]
        simpa using hinv
    | cons s rest => exact absurd hrun (by simp [chunkLoop])
  | succ n ih =>
    intro rest cur ct cid acc chs hrun hinv
    cases rest with
    | nil =>
      simp only [chunkLoop] at hrun
      by_cases hc : cur = []
      · rw [if_pos hc] at hrun
        injection hrun with hrun
        subst hrun
        subst hc
        exact (List.chain'_append.mp hinv).1
      · rw [if_neg hc] at hrun
        injection hrun with hrun
        subst hrun
        rw [List.map_append]
        simpa using hinv
    | cons s rest =>
      simp only [chunkLoop] at hrun
      by_cases hcond : ct + estimateTokens s > cs ∧ cur ≠ []
      · rw [if_pos hcond] at hrun
        refine ih _ _ _ _ _ _ hrun ?_
        rw [List.map_append]
        simp only [List.map_cons, List.map_nil]
        exact chain_concat_overlap ov (acc.map Prod.fst) cur _ hinv ⟨[], by simp [ovSentences]⟩
      · rw [if_neg hcond] at hrun
        refine ih _ _ _ _ _ _ hrun ?_
        refine chain_last_extend ov (acc.map Prod.fst) cur _ hinv ?_
        rintro a ⟨t, ht⟩
        exact ⟨t ++ [s], by rw [← List.append_assoc, ht]⟩

/-- Counterexample for C4 as stated: with `overlap_tokens = 1 > 0`, the
sentences of `"Abcdefgh. Bcdefghi. Cdefghij."` each estimate to 2 tokens, so
every recomputed overlap is empty; chunk 0 is closed by the token-budget
rule (it is not the last chunk), yet chunks 0 and 1 share no sentence: no
non-empty suffix of chunk 0's sentences is a prefix of chunk 1's. -/
theorem c4_counterexample :
    chunkTextS 20 "Abcdefgh. Bcdefghi. Cdefghij." 2 1 =
      some [(["Abcdefgh."], 0), (["Bcdefghi."], 1), (["Cdefghij."], 2)] ∧
    ¬ ∃ l : List String, l ≠ [] ∧ (∃ u, u ++ l = ["Abcdefgh."]) ∧
        ∃ t, l ++ t = ["Bcdefghi."] := by
  constructor
  · decide
  · rintro ⟨l, hne, ⟨u, hu⟩, ⟨t, ht⟩⟩
    have hlen := congrArg List.length hu
    simp only [List.length_append, List.length_cons, List.length_nil] at hlen
    have hpos : 0 < l.length := List.length_pos.mpr hne
    have hu0 : u = [] := List.length_eq_zero.mp (by omega)
    subst hu0
    rw [List.nil_append] at hu
    subst hu
    injection ht with h1 h2
    exact absurd h1 (by decide)

/-- Claim C4, amended: whenever `chunk_text` closes chunk `i` by the
token-budget rule (equivalently, chunk `i` is not the last chunk), chunk
`i+1`'s sentences begin with the overlap sentences recomputed from chunk
`i`'s sentences — a (possibly empty) suffix of chunk `i`'s sentences; this
shared part is non-empty exactly when `overlap_tokens > 0` and the estimated
token count of chunk `i`'s last sentence is at most `overlap_tokens`. -/
theorem c4_overlap_of_consecutive (cs ov fuel : Nat) (text : String)
    (chs pre post : List (List String × Nat)) (a b : List String) (na nb : Nat)
    (hrun : chunkTextS fuel text cs ov = some chs)
    (hsplit : chs = pre ++ (a, na) :: (b, nb) :: post) :
    (∃ u, u ++ ovSentences ov a = a) ∧
    overlapChain ov a b ∧
    (ovSentences ov a ≠ [] ↔
      0 < ov ∧ ∃ lastS, a.getLast? = some lastS ∧ estimateTokens lastS ≤ ov) := by
  refine ⟨ovSentences_suffix ov a, ?_, ovSentences_ne_nil_iff ov a⟩
  simp only [chunkTextS] at hrun
  split_ifs at hrun with h1 h2
  · injection hrun with hrun
    rw [← hrun] at hsplit
    have hlen := congrArg List.length hsplit
    simp at hlen
    omega
  · injection hrun with hrun
    rw [← hrun] at hsplit
    have hlen := congrArg List.length hsplit
    simp at hlen
    omega
  · have hchain := chunkLoop_chain cs ov fuel _ [] 0 0 [] chs hrun (by simp)
    rw [hsplit, List.map_append] at hchain
    simp only [List.map_cons] at hchain
    have hsub := (List.chain'_append.mp hchain).2.1
    exact (List.chain'_cons.mp hsub).1

/-- Witness for C4's amended claim at a concrete input. -/
theorem c4_witness :
    (∃ u, u ++ ovSentences 1 ["Abc.", "Bcd."] = ["Abc.", "Bcd."]) ∧
    overlapChain 1 ["Abc.", "Bcd."] ["Bcd.", "Cde."] ∧
    (ovSentences 1 ["Abc.", "Bcd."] ≠ [] ↔
      0 < 1 ∧ ∃ lastS, (["Abc.", "Bcd."] : List String).getLast? = some lastS ∧
        estimateTokens lastS ≤ 1) :=
  c4_overlap_of_consecutive 2 1 20 "Abc. Bcd. Cde."
    [(["Abc.", "Bcd."], 0), (["Bcd.", "Cde."], 1)] [] []
    ["Abc.", "Bcd."] ["Bcd.", "Cde."] 0 1 (by decide) rfl
